import Mathlib

/-!
Verification of the ferry-risk pipeline (`ferry_risk_streamlit.py`).

The source is shallowly embedded: text is `List Char`, floats are `ℚ`
(every numeric operation of the source is exact rational arithmetic),
each regular-expression search of the source is embedded as a dedicated
leftmost-match scanner with the same greedy/backtracking behaviour, and
the two `RuntimeError` raises become an `Except FerryErr` result.
-/

set_option maxHeartbeats 1000000

/-- Errors raised by the pipeline: the two `RuntimeError`s of the source
(`fetch_anz232_block` when the anchor phrase is missing, and
`parse_periods_from_block` when no periods were parsed). -/
inductive FerryErr where
  | regionNotFound
  | noPeriods
deriving DecidableEq

/- ------------------------------------------------------------------
Risk scorer (`predict_ferry_run`, source lines 12-67).
------------------------------------------------------------------ -/

/-- The raw (pre-clamp) score of `predict_ferry_run`: the sequential
penalty subtractions of source lines 26-49, translated literally. -/
def scoreRaw (wvht_ft wspd_kt gust_kt dpd_s : ℚ) (tod_hour : Option ℚ) : ℚ :=
  let s0 : ℚ := 90
  let s1 := if wvht_ft > 4 then s0 - (wvht_ft - 4) * 6 else s0
  let s2 := if wvht_ft > 6 then s1 - (wvht_ft - 6) * 8 else s1
  let s3 := if wspd_kt > 22 then s2 - (wspd_kt - 22) * (3 / 2) else s2
  let s4 := if gust_kt > 30 then s3 - (gust_kt - 30) * 1 else s3
  let s5 := if dpd_s < 6 then s4 - (6 - dpd_s) * 5
            else if dpd_s < 7 then s4 - (7 - dpd_s) * 2 else s4
  match tod_hour with
  | some t => if (5 ≤ t ∧ t ≤ 8) ∨ (18 ≤ t ∧ t ≤ 22) then s5 - 3 else s5
  | none => s5

/-- The clamp of source line 52: `max(1.0, min(99.0, score))`. -/
def clampScore (s : ℚ) : ℚ := max 1 (min 99 s)

/-- The risk-band thresholding of source lines 58-65, on `prob_run`. -/
def bandOf (p : ℚ) : String :=
  if p ≥ 9 / 10 then "LOW"
  else if p ≥ 7 / 10 then "MODERATE"
  else if p ≥ 2 / 5 then "HIGH"
  else "VERY HIGH"

/-- `predict_ferry_run` (source lines 12-67): returns
`(prob_run, prob_cancel, risk_band)`. -/
def predict_ferry_run (wvht_ft wspd_kt gust_kt dpd_s : ℚ) (tod_hour : Option ℚ) :
    ℚ × ℚ × String :=
  let score := clampScore (scoreRaw wvht_ft wspd_kt gust_kt dpd_s tod_hour)
  let prob_run := score / 100
  (prob_run, 1 - prob_run, bandOf prob_run)

/-- Total wave-height penalty of lines 29-32 (both thresholds can fire). -/
def seasPen (w : ℚ) : ℚ :=
  (if w > 4 then (w - 4) * 6 else 0) + (if w > 6 then (w - 6) * 8 else 0)

/-- Wind-speed penalty of lines 35-36. -/
def windPen (x : ℚ) : ℚ := if x > 22 then (x - 22) * (3 / 2) else 0

/-- Gust penalty of lines 37-38. -/
def gustPen (g : ℚ) : ℚ := if g > 30 then (g - 30) * 1 else 0

/-- Dominant-period penalty of lines 41-44 (the two branches are
mutually exclusive). -/
def perPen (d : ℚ) : ℚ :=
  if d < 6 then (6 - d) * 5 else if d < 7 then (7 - d) * 2 else 0

/-- Time-of-day penalty of lines 47-49. -/
def todPen : Option ℚ → ℚ
  | none => 0
  | some t => if (5 ≤ t ∧ t ≤ 8) ∨ (18 ≤ t ∧ t ≤ 22) then 3 else 0

/- ------------------------------------------------------------------
Generic character/text helpers shared by the embedded components.
------------------------------------------------------------------ -/

/-- Python whitespace (`str.strip`, regex class of blank characters),
restricted to the ASCII set used by the forecast product. -/
def pyWsB (c : Char) : Bool :=
  c == ' ' || c == '\t' || c == '\n' || c == '\r' || c == '\x0b' || c == '\x0c'

/-- Case-sensitive "starts with" on character lists (Python `str.startswith`,
and literal parts of case-sensitive regexes). -/
def startsWithL : List Char → List Char → Bool
  | [], _ => true
  | _ :: _, [] => false
  | p :: ps, c :: cs => p == c && startsWithL ps cs

/-- Case-insensitive "starts with" (literal parts of `re.IGNORECASE`
patterns; ASCII case folding, as in the source's inputs). -/
def startsWithCI : List Char → List Char → Bool
  | [], _ => true
  | _ :: _, [] => false
  | p :: ps, c :: cs => p.toLower == c.toLower && startsWithCI ps cs

/-- Does the predicate hold at some suffix position of the text?  This is
the position scan underlying `re.search` when only a match's existence
matters. -/
def anyPos (p : List Char → Bool) : List Char → Bool
  | [] => p []
  | c :: t => p (c :: t) || anyPos p t

/-- First (leftmost) position at which the predicate holds: the position
scan of `re.search` when the match's start index matters. -/
def findPos (p : List Char → Bool) : List Char → Option Nat
  | [] => if p [] then some 0 else none
  | c :: t => if p (c :: t) then some 0 else (findPos p t).map (fun n => n + 1)

/-- Python `str.rstrip()`: drop trailing whitespace. -/
def dropTrail (l : List Char) : List Char := (l.reverse.dropWhile pyWsB).reverse

/-- Python `str.strip()`: drop leading and trailing whitespace. -/
def pyStrip (l : List Char) : List Char := dropTrail (l.dropWhile pyWsB)

/-- Python `str.splitlines()` restricted to the newline terminator: split
on `\n`, with no trailing empty line for text ending in `\n`. -/
def splitNLgo (acc : List Char) : List Char → List (List Char)
  | [] => [acc.reverse]
  | c :: r =>
    if c = '\n' then
      match r with
      | [] => [acc.reverse]
      | _ :: _ => acc.reverse :: splitNLgo [] r
    else splitNLgo (c :: acc) r

/-- Python `str.splitlines()` (top level: the empty string has no lines). -/
def splitNL : List Char → List (List Char)
  | [] => []
  | c :: r => splitNLgo [] (c :: r)

/-- Python `str.isupper()` over ASCII: at least one cased character and
no lowercase cased character. -/
def pyIsUpper (l : List Char) : Bool :=
  l.any Char.isAlpha && !(l.any Char.isLower)

/- ------------------------------------------------------------------
Region extractor (`fetch_anz232_block`, source lines 84-104); only its
pure part after the HTTP fetch and HTML cleanup is embedded.
------------------------------------------------------------------ -/

/-- The anchor phrase `Nantucket Sound` of source line 93. -/
def anchorL : List Char :=
  ['N', 'a', 'n', 't', 'u', 'c', 'k', 'e', 't', ' ', 'S', 'o', 'u', 'n', 'd']

/-- The anchor reversed (used in proofs about trailing-whitespace strip). -/
def anchorRev : List Char :=
  ['d', 'n', 'u', 'o', 'S', ' ', 't', 'e', 'k', 'c', 'u', 't', 'n', 'a', 'N']

/-- Character class `[A-Za-z ]` of the sibling-heading regex (line 98). -/
def inCls (c : Char) : Bool := c.isUpper || c.isLower || c == ' '

/-- The literal `Sound\n` tail of the sibling-heading regex. -/
def soundNl : List Char := ['S', 'o', 'u', 'n', 'd', '\n']

/-- After `[A-Z]`: one or more `[A-Za-z ]` characters followed by the
literal `Sound\n` (existence of a match; greediness only moves the match
end, which the source never uses). -/
def sibAfter : List Char → Bool
  | [] => false
  | c :: r => inCls c && (startsWithL soundNl r || sibAfter r)

/-- Does the sibling-heading regex `\n[A-Z][A-Za-z ]+Sound\n` of source
line 98 match at the head of the text? -/
def sibAt : List Char → Bool
  | c0 :: c1 :: r => c0 == '\n' && c1.isUpper && sibAfter r
  | _ => false

/-- Pure part of `fetch_anz232_block` (source lines 93-104): locate the
anchor, cut at the next sibling `* Sound` heading if any, and strip. -/
def fetch_anz232_block (cleaned : List Char) : Except FerryErr (List Char) :=
  match findPos (startsWithL anchorL) cleaned with
  | none => Except.error FerryErr.regionNotFound
  | some i =>
    let sub := cleaned.drop i
    let block :=
      match findPos sibAt (sub.drop 1) with
      | some j => sub.take (j + 1)
      | none => sub
    Except.ok (pyStrip block)

/- ------------------------------------------------------------------
Period segmenter (`parse_periods_from_block`, source lines 111-160).
------------------------------------------------------------------ -/

/-- The literal `AM`. -/
def amL : List Char := ['A', 'M']

/-- The literal `PM`. -/
def pmL : List Char := ['P', 'M']

/-- The literal `WARNING`. -/
def warnL : List Char := ['W', 'A', 'R', 'N', 'I', 'N', 'G']

/-- The literal `WATCH`. -/
def watchL : List Char := ['W', 'A', 'T', 'C', 'H']

/-- `\s+AM` at the head of the text: at least one whitespace character,
then the literal `AM`. -/
def wsAmL (l : List Char) : Bool :=
  match l with
  | c :: _ => pyWsB c && startsWithL amL (l.dropWhile pyWsB)
  | [] => false

/-- Does `\d{3,4}\s+AM` (the left alternative of the timestamp regex of
source line 142) match at the head of the text? -/
def d34AmAt : List Char → Bool
  | c1 :: c2 :: c3 :: r =>
    c1.isDigit && c2.isDigit && c3.isDigit &&
      ((match r with
        | c4 :: r2 => c4.isDigit && wsAmL r2
        | [] => false) ||
        wsAmL r)
  | _ => false

/-- Does `\d{3,4}\s+AM|PM` match at the head of the text?  The alternation
of the source regex binds loosely: the right alternative is the bare
literal `PM`. -/
def tsAt (l : List Char) : Bool := d34AmAt l || startsWithL pmL l

/-- `re.search(r"\d{3,4}\s+AM|PM", ln)` succeeds (source line 142). -/
def tsSearch (l : List Char) : Bool := anyPos tsAt l

/-- `"WARNING" in ln or "WATCH" in ln` (source line 144). -/
def warnHit (l : List Char) : Bool :=
  anyPos (startsWithL warnL) l || anyPos (startsWithL watchL) l

/-- `ln.strip().isupper() and len(ln.strip()) <= 20` (source line 147). -/
def isLabelLine (l : List Char) : Bool :=
  pyIsUpper (pyStrip l) && (pyStrip l).length ≤ 20

/-- Scanner state of `parse_periods_from_block`: the `started` flag, the
current label, the accumulated body lines, and the emitted periods. -/
structure SegSt where
  started : Bool
  label : Option (List Char)
  body : List (List Char)
  periods : List (List Char × List Char)
deriving DecidableEq

/-- `flush_current()` (source lines 124-130): emit `(label, body)` when the
label is truthy and at least one body line accumulated; reset both. -/
def segFlush (st : SegSt) : SegSt :=
  match st.label with
  | some lb =>
    if lb.isEmpty || st.body.isEmpty then { st with label := none, body := [] }
    else
      { st with
        periods := st.periods ++
          [(lb, pyStrip (List.intercalate [' '] (st.body.map pyStrip)))],
        label := none, body := [] }
  | none => { st with label := none, body := [] }

/-- One iteration of the line loop of source lines 133-153. -/
def segStep (st : SegSt) (ln : List Char) : SegSt :=
  if !st.started then
    if anyPos (startsWithL anchorL) ln then { st with started := true } else st
  else if (pyStrip ln).isEmpty then st
  else if tsSearch ln then st
  else if warnHit ln then st
  else if isLabelLine ln then
    let st2 := segFlush st
    { st2 with label := some (pyStrip ln), body := [] }
  else
    match st.label with
    | some _ => { st with body := st.body ++ [ln] }
    | none => st

/-- `parse_periods_from_block` (source lines 111-160). -/
def parse_periods_from_block (block : List Char) :
    Except FerryErr (List (List Char × List Char)) :=
  let lines := (splitNL block).map dropTrail
  let st := lines.foldl segStep ⟨false, none, [], []⟩
  let st2 := segFlush st
  if st2.periods = [] then Except.error FerryErr.noPeriods
  else Except.ok st2.periods

/- ------------------------------------------------------------------
Measurement extractor (`extract_wind_seas_period`, source lines 167-219).
Each regex is embedded as a matcher at a fixed position plus the leftmost
position scan `searchAt`; greedy `\d{1,2}` groups backtrack from two
digits to one exactly as the regex engine does.
------------------------------------------------------------------ -/

/-- Leftmost-match search: try the matcher at every position from the left
and return the first success (`re.search`). -/
def searchAt {α : Type} (m : List Char → Option α) : List Char → Option α
  | [] => m []
  | c :: t =>
    match m (c :: t) with
    | some v => some v
    | none => searchAt m t

/-- Digit value of an ASCII digit character. -/
def dv (c : Char) : Nat := c.toNat - 48

/-- `(\d{1,2})\s*LIT` at the head of the text, case-insensitively, for a
literal `LIT`: greedy two-digit capture with backtracking to one digit. -/
def numThenLit (lit : List Char) : List Char → Option Nat
  | c1 :: r1 =>
    if c1.isDigit then
      match r1 with
      | c2 :: r2 =>
        if c2.isDigit && startsWithCI lit (r2.dropWhile pyWsB) then
          some (10 * dv c1 + dv c2)
        else if startsWithCI lit (r1.dropWhile pyWsB) then some (dv c1)
        else none
      | [] => if startsWithCI lit ((List.nil).dropWhile pyWsB) then some (dv c1) else none
    else none
  | [] => none

/-- `\s*(?:to|-)\s*(\d{1,2})\s*LIT` at the head of the text (the tail of
the two range patterns, lines 181 and 196). -/
def rangeTail (lit : List Char) (rest : List Char) : Option Nat :=
  let l1 := rest.dropWhile pyWsB
  if startsWithCI ['t', 'o'] l1 then numThenLit lit ((l1.drop 2).dropWhile pyWsB)
  else
    match l1 with
    | '-' :: r => numThenLit lit (r.dropWhile pyWsB)
    | _ => none

/-- `(\d{1,2})\s*(?:to|-)\s*(\d{1,2})\s*LIT` at the head of the text. -/
def numRangeNum (lit : List Char) : List Char → Option (Nat × Nat)
  | c1 :: r1 =>
    if c1.isDigit then
      let two :=
        match r1 with
        | c2 :: r2 =>
          if c2.isDigit then (rangeTail lit r2).map (fun b => (10 * dv c1 + dv c2, b))
          else none
        | [] => none
      match two with
      | some v => some v
      | none => (rangeTail lit r1).map (fun b => (dv c1, b))
    else none
  | [] => none

/-- The literal `kt`. -/
def ktL : List Char := ['k', 't']

/-- The literal `ft`. -/
def ftL : List Char := ['f', 't']

/-- Wind range pattern `(\d{1,2})\s*(?:to|-)\s*(\d{1,2})\s*kt` (line 181)
at the head of the text. -/
def mRangeKtAt (l : List Char) : Option (Nat × Nat) := numRangeNum ktL l

/-- Wind single pattern `(\d{1,2})\s*kt` (line 186) at the head. -/
def mSingleKtAt (l : List Char) : Option Nat := numThenLit ktL l

/-- After `gusts?`: `\s+(?:up to\s*)?(\d{1,2})\s*kt` (line 191). -/
def gustTail (r : List Char) : Option Nat :=
  match r with
  | c :: _ =>
    if pyWsB c then
      let r2 := r.dropWhile pyWsB
      let withUp :=
        if startsWithCI ['u', 'p', ' ', 't', 'o'] r2 then
          numThenLit ktL ((r2.drop 5).dropWhile pyWsB)
        else none
      match withUp with
      | some v => some v
      | none => numThenLit ktL r2
    else none
  | [] => none

/-- Gust pattern `gusts?\s+(?:up to\s*)?(\d{1,2})\s*kt` (line 191) at the
head of the text: the optional `s` is tried greedily first. -/
def mGustAt (l : List Char) : Option Nat :=
  if startsWithCI ['g', 'u', 's', 't'] l then
    let r := l.drop 4
    let withS :=
      match r with
      | c :: r2 => if c.toLower == 's' then gustTail r2 else none
      | [] => none
    match withS with
    | some v => some v
    | none => gustTail r
  else none

/-- After `seas?`: `\s+` then the given tail matcher. -/
def seasBody {α : Type} (tail : List Char → Option α) (r : List Char) : Option α :=
  match r with
  | c :: _ => if pyWsB c then tail (r.dropWhile pyWsB) else none
  | [] => none

/-- Seas pattern head `seas?` with greedy optional `s`, then the tail. -/
def seasHead {α : Type} (tail : List Char → Option α) (l : List Char) : Option α :=
  if startsWithCI ['s', 'e', 'a'] l then
    let r := l.drop 3
    let withS :=
      match r with
      | c :: r2 => if c.toLower == 's' then seasBody tail r2 else none
      | [] => none
    match withS with
    | some v => some v
    | none => seasBody tail r
  else none

/-- Seas range pattern `seas?\s+(\d{1,2})\s*(?:to|-)\s*(\d{1,2})\s*ft`
(line 196) at the head of the text. -/
def mSeasRangeAt (l : List Char) : Option (Nat × Nat) := seasHead (numRangeNum ftL) l

/-- Seas single pattern `seas?\s+(\d{1,2})\s*ft` (line 201) at the head. -/
def mSeasSingleAt (l : List Char) : Option Nat := seasHead (numThenLit ftL) l

/-- Period pattern `at\s+(\d{1,2})\s*seconds` (line 206) at the head. -/
def mDpdAt (l : List Char) : Option Nat :=
  if startsWithCI ['a', 't'] l then
    match l.drop 2 with
    | c :: _ =>
      if pyWsB c then
        numThenLit ['s', 'e', 'c', 'o', 'n', 'd', 's'] ((l.drop 2).dropWhile pyWsB)
      else none
    | [] => none
  else none

/-- The four extracted quantities (spec data model `Measurements`). -/
structure Measurements where
  seas_ft : ℚ
  wspd_kt : ℚ
  gust_kt : ℚ
  dpd_s : ℚ
deriving DecidableEq

/-- Wind speed of lines 180-188: max of the first `A to B kt` range, else
the first single `N kt`, else the 20.0 default of line 211. -/
def wspdOf (t : List Char) : ℚ :=
  match searchAt mRangeKtAt t with
  | some p => ((max p.1 p.2 : ℕ) : ℚ)
  | none =>
    match searchAt mSingleKtAt t with
    | some n => (n : ℚ)
    | none => 20

/-- Gust of lines 190-193: the first gusts phrase, else wind + 5 (line 213). -/
def gustOf (t : List Char) : ℚ :=
  match searchAt mGustAt t with
  | some n => (n : ℚ)
  | none => wspdOf t + 5

/-- Seas of lines 195-203: midpoint of the first `seas A to B ft` range,
else the first `seas N ft`, else the 4.0 default of line 215. -/
def seasOf (t : List Char) : ℚ :=
  match searchAt mSeasRangeAt t with
  | some p => ((p.1 : ℚ) + (p.2 : ℚ)) / 2
  | none =>
    match searchAt mSeasSingleAt t with
    | some n => (n : ℚ)
    | none => 4

/-- Dominant period of lines 205-208: the first `at N seconds` phrase,
else the 6.0 default of line 217. -/
def dpdOf (t : List Char) : ℚ :=
  match searchAt mDpdAt t with
  | some n => (n : ℚ)
  | none => 6

/-- `extract_wind_seas_period` (source lines 167-219). -/
def extract_wind_seas_period (t : List Char) : Measurements :=
  ⟨seasOf t, wspdOf t, gustOf t, dpdOf t⟩

/- ------------------------------------------------------------------
Period selector (`choose_period_for_date`, source lines 226-248).
------------------------------------------------------------------ -/

/-- First period whose label starts with the given text (the inner loops
of source lines 238-240 and 243-246). -/
def findStartsWith (pre : List Char) :
    List (List Char × List Char) → Option (List Char × List Char)
  | [] => none
  | p :: rest => if startsWithL pre p.1 then some p else findStartsWith pre rest

/-- The fallback preference order of source line 242. -/
def priorityLabels : List (List Char) :=
  [['T', 'O', 'N', 'I', 'G', 'H', 'T'],
   ['T', 'H', 'I', 'S', ' ', 'A', 'F', 'T', 'E', 'R', 'N', 'O', 'O', 'N'],
   ['T', 'O', 'D', 'A', 'Y']]

/-- The nested fallback loops of source lines 243-246. -/
def tryPrio : List (List Char) → List (List Char × List Char) →
    Option (List Char × List Char)
  | [], _ => none
  | pre :: rest, ps =>
    match findStartsWith pre ps with
    | some p => some p
    | none => tryPrio rest ps

/-- `departure_date.strftime("%a").upper()[:3]` for weekday 0 = Monday
through 6 = Sunday (C locale three-letter abbreviations, upper-cased). -/
def weekdayAbbrev : Nat → List Char
  | 0 => ['M', 'O', 'N']
  | 1 => ['T', 'U', 'E']
  | 2 => ['W', 'E', 'D']
  | 3 => ['T', 'H', 'U']
  | 4 => ['F', 'R', 'I']
  | 5 => ['S', 'A', 'T']
  | _ => ['S', 'U', 'N']

/-- `choose_period_for_date` (source lines 226-248), taking the computed
weekday abbreviation; `none` only on an empty list (where the source's
`periods[0]` would raise `IndexError`). -/
def choose_period_for_date (ps : List (List Char × List Char))
    (ab : List Char) : Option (List Char × List Char) :=
  match findStartsWith ab ps with
  | some p => some p
  | none =>
    match tryPrio priorityLabels ps with
    | some p => some p
    | none => ps.head?

/- ------------------------------------------------------------------
Helper lemmas about the risk scorer.
------------------------------------------------------------------ -/

/-- The sequential subtractions of `scoreRaw` decompose into the base
score minus the five independent penalties. -/
theorem scoreRaw_eq (w x g d : ℚ) (t : Option ℚ) :
    scoreRaw w x g d t = 90 - seasPen w - windPen x - gustPen g - perPen d - todPen t := by
  cases t <;>
    simp only [scoreRaw, seasPen, windPen, gustPen, perPen, todPen] <;>
    split_ifs <;> ring

/-- The wave-height penalty is monotone non-decreasing. -/
theorem seasPen_mono {a b : ℚ} (h : a ≤ b) : seasPen a ≤ seasPen b := by
  unfold seasPen; split_ifs <;> linarith

/-- The wind penalty is monotone non-decreasing. -/
theorem windPen_mono {a b : ℚ} (h : a ≤ b) : windPen a ≤ windPen b := by
  unfold windPen; split_ifs <;> linarith

/-- The gust penalty is monotone non-decreasing. -/
theorem gustPen_mono {a b : ℚ} (h : a ≤ b) : gustPen a ≤ gustPen b := by
  unfold gustPen; split_ifs <;> linarith

/-- The period penalty is monotone non-increasing away from the seam at
6 seconds: when both points are below 6, both are at or above 6, or the
smaller one is at most 5.6. -/
theorem perPen_anti {a b : ℚ} (h : a ≤ b) (hc : b < 6 ∨ 6 ≤ a ∨ a ≤ 28 / 5) :
    perPen b ≤ perPen a := by
  unfold perPen
  rcases hc with hc | hc | hc <;> split_ifs <;> linarith

/-- `prob_run` as a function of the raw score. -/
theorem predict_fst (w x g d : ℚ) (t : Option ℚ) :
    (predict_ferry_run w x g d t).1 = clampScore (scoreRaw w x g d t) / 100 := rfl

/-- Clamping and dividing by 100 preserve order. -/
theorem prob_le_of_score {s1 s2 : ℚ} (h : s1 ≤ s2) :
    clampScore s1 / 100 ≤ clampScore s2 / 100 := by
  have hm : clampScore s1 ≤ clampScore s2 :=
    max_le_max (le_refl 1) (min_le_min (le_refl 99) h)
  linarith

/- ------------------------------------------------------------------
Claim C5.
------------------------------------------------------------------ -/

/-- Claim C5 (confirmed): for every input to `predict_ferry_run`,
`prob_run` lies in `[0.01, 0.99]` (the score is clamped to `[1, 99]`
before dividing by 100), and `prob_cancel` equals `1 - prob_run`
exactly. -/
theorem c5_prob_bounds (w x g d : ℚ) (t : Option ℚ) :
    1 / 100 ≤ (predict_ferry_run w x g d t).1 ∧
      (predict_ferry_run w x g d t).1 ≤ 99 / 100 ∧
      (predict_ferry_run w x g d t).2.1 = 1 - (predict_ferry_run w x g d t).1 := by
  refine ⟨?_, ?_, rfl⟩
  · rw [predict_fst]
    have h1 : (1 : ℚ) ≤ clampScore (scoreRaw w x g d t) := le_max_left _ _
    linarith
  · rw [predict_fst]
    have h2 : clampScore (scoreRaw w x g d t) ≤ 99 :=
      max_le (by norm_num) (min_le_left _ _)
    linarith

/- ------------------------------------------------------------------
Claim C6.
------------------------------------------------------------------ -/

/-- Claim C6 (confirmed): the risk-band thresholds are closed on the
lower edge — `prob_run = 0.90` yields LOW, `0.8999` MODERATE, `0.70`
MODERATE, `0.40` HIGH, `0.3999` VERY HIGH — and the band returned by
`predict_ferry_run` is exactly this thresholding of its `prob_run`. -/
theorem c6_band_edges :
    bandOf (9 / 10) = "LOW" ∧ bandOf (8999 / 10000) = "MODERATE" ∧
      bandOf (7 / 10) = "MODERATE" ∧ bandOf (2 / 5) = "HIGH" ∧
      bandOf (3999 / 10000) = "VERY HIGH" ∧
      ∀ w x g d t, (predict_ferry_run w x g d t).2.2 =
        bandOf (predict_ferry_run w x g d t).1 :=
  ⟨by norm_num [bandOf], by norm_num [bandOf], by norm_num [bandOf],
    by norm_num [bandOf], by norm_num [bandOf], fun _ _ _ _ _ => rfl⟩

/- ------------------------------------------------------------------
Claim C4.
------------------------------------------------------------------ -/

/-- Claim C4 (confirmed): with seas ≤ 4 ft, wind ≤ 22 kt, gust ≤ 30 kt,
dominant period ≥ 7 s, and time-of-day omitted or outside `[5,8]` and
`[18,22]`, the score stays at the 90.0 base, so `prob_run = 0.90`,
`prob_cancel = 0.10`, and the band is LOW. -/
theorem c4_benign (w x g d : ℚ) (t : Option ℚ)
    (h1 : w ≤ 4) (h2 : x ≤ 22) (h3 : g ≤ 30) (h4 : 7 ≤ d)
    (h5 : t = none ∨ ∃ u, t = some u ∧ ¬(5 ≤ u ∧ u ≤ 8) ∧ ¬(18 ≤ u ∧ u ≤ 22)) :
    predict_ferry_run w x g d t = (9 / 10, 1 / 10, "LOW") := by
  have e1 : seasPen w = 0 := by unfold seasPen; split_ifs <;> linarith
  have e2 : windPen x = 0 := by unfold windPen; split_ifs <;> linarith
  have e3 : gustPen g = 0 := by unfold gustPen; split_ifs <;> linarith
  have e4 : perPen d = 0 := by unfold perPen; split_ifs <;> linarith
  have e5 : todPen t = 0 := by
    rcases h5 with h | ⟨u, hu, hw1, hw2⟩
    · rw [h]; rfl
    · rw [hu]; simp only [todPen]
      split_ifs with hcond
      · rcases hcond with hc | hc
        · exact absurd hc hw1
        · exact absurd hc hw2
      · rfl
  have hsc : scoreRaw w x g d t = 90 := by
    rw [scoreRaw_eq, e1, e2, e3, e4, e5]; ring
  simp only [predict_ferry_run, hsc]
  norm_num [clampScore, bandOf]

/-- Witness for C4 at a concrete benign input. -/
theorem c4_benign_witness :
    predict_ferry_run 1 2 3 8 (some 12) = (9 / 10, 1 / 10, "LOW") :=
  c4_benign 1 2 3 8 (some 12) (by norm_num) (by norm_num) (by norm_num)
    (by norm_num) (Or.inr ⟨12, rfl, by norm_num, by norm_num⟩)

/- ------------------------------------------------------------------
Claim C1.
------------------------------------------------------------------ -/

/-- Claim C1 (counterexample): the score is NOT monotone non-decreasing
in the dominant wave period across the 6-second threshold.  At period
5.8 s (all other penalties off) the score is 89 and `prob_run = 0.89`;
at the larger period 6 s the `elif` branch subtracts `2.0 * (7 - 6)`,
giving score 88 and `prob_run = 0.88`, strictly smaller. -/
theorem c1_period_counterexample :
    (29 : ℚ) / 5 ≤ 6 ∧
      (predict_ferry_run 0 0 0 6 none).1 <
        (predict_ferry_run 0 0 0 ((29 : ℚ) / 5) none).1 := by
  constructor
  · norm_num
  · norm_num [predict_ferry_run, scoreRaw, clampScore, min_def, max_def]

/-- Claim C1 (amended): the score — hence `prob_run` — is monotone
non-increasing in seas, in wind speed and in gust over the whole domain;
it is monotone non-decreasing in the dominant wave period except across
the 6-second seam: monotonicity holds whenever the two periods are on
the same side of 6 s, or the smaller one is at most 5.6 s (for a period
in `(5.6, 6)` against one in `[6, 7)` it can fail). -/
theorem c1_monotonicity_amended :
    (∀ w1 w2 x g d t, w1 ≤ w2 →
        (predict_ferry_run w2 x g d t).1 ≤ (predict_ferry_run w1 x g d t).1) ∧
      (∀ w x1 x2 g d t, x1 ≤ x2 →
        (predict_ferry_run w x2 g d t).1 ≤ (predict_ferry_run w x1 g d t).1) ∧
      (∀ w x g1 g2 d t, g1 ≤ g2 →
        (predict_ferry_run w x g2 d t).1 ≤ (predict_ferry_run w x g1 d t).1) ∧
      (∀ w x g d1 d2 t, d1 ≤ d2 → (d2 < 6 ∨ 6 ≤ d1 ∨ d1 ≤ 28 / 5) →
        (predict_ferry_run w x g d1 t).1 ≤ (predict_ferry_run w x g d2 t).1) := by
  refine ⟨?_, ?_, ?_, ?_⟩
  · intro w1 w2 x g d t h
    rw [predict_fst, predict_fst]
    apply prob_le_of_score
    rw [scoreRaw_eq, scoreRaw_eq]
    have := seasPen_mono h
    linarith
  · intro w x1 x2 g d t h
    rw [predict_fst, predict_fst]
    apply prob_le_of_score
    rw [scoreRaw_eq, scoreRaw_eq]
    have := windPen_mono h
    linarith
  · intro w x g1 g2 d t h
    rw [predict_fst, predict_fst]
    apply prob_le_of_score
    rw [scoreRaw_eq, scoreRaw_eq]
    have := gustPen_mono h
    linarith
  · intro w x g d1 d2 t h hc
    rw [predict_fst, predict_fst]
    apply prob_le_of_score
    rw [scoreRaw_eq, scoreRaw_eq]
    have := perPen_anti h hc
    linarith

/-- Witness for the amended C1 at concrete inputs: raising seas from 3 ft
to 5 ft does not raise `prob_run`. -/
theorem c1_monotonicity_witness :
    (predict_ferry_run 5 0 0 8 none).1 ≤ (predict_ferry_run 3 0 0 8 none).1 :=
  c1_monotonicity_amended.1 3 5 0 0 8 none (by norm_num)

/- ------------------------------------------------------------------
Helper lemmas about the measurement extractor.
------------------------------------------------------------------ -/

/-- The extracted wind speed is never negative. -/
theorem wspdOf_nonneg (t : List Char) : 0 ≤ wspdOf t := by
  unfold wspdOf
  cases h1 : searchAt mRangeKtAt t with
  | some p => simp
  | none =>
    cases h2 : searchAt mSingleKtAt t with
    | some n => simp
    | none => norm_num

/-- The extracted gust is never negative. -/
theorem gustOf_nonneg (t : List Char) : 0 ≤ gustOf t := by
  unfold gustOf
  cases h1 : searchAt mGustAt t with
  | some n => simp
  | none =>
    have h2 := wspdOf_nonneg t
    show 0 ≤ wspdOf t + 5
    linarith

/-- The extracted seas value is never negative. -/
theorem seasOf_nonneg (t : List Char) : 0 ≤ seasOf t := by
  unfold seasOf
  cases h1 : searchAt mSeasRangeAt t with
  | some p => positivity
  | none =>
    cases h2 : searchAt mSeasSingleAt t with
    | some n => simp
    | none => norm_num

/-- The extracted dominant period is never negative. -/
theorem dpdOf_nonneg (t : List Char) : 0 ≤ dpdOf t := by
  unfold dpdOf
  cases h1 : searchAt mDpdAt t with
  | some n => simp
  | none => norm_num

/- ------------------------------------------------------------------
Claim C2.
------------------------------------------------------------------ -/

/-- Claim C2 (counterexample): the body text `at 0 seconds` matches the
period pattern with a captured `0`, so `dpd_s = 0`, violating the claimed
strict positivity `dpd_s > 0`. -/
theorem c2_dpd_counterexample :
    (extract_wind_seas_period (("at 0 seconds").data)).dpd_s = 0 ∧
      ¬ (0 < (extract_wind_seas_period (("at 0 seconds").data)).dpd_s) := by
  have h : searchAt mDpdAt (("at 0 seconds").data) = some 0 := by decide
  have h0 : (extract_wind_seas_period (("at 0 seconds").data)).dpd_s = 0 := by
    show dpdOf (("at 0 seconds").data) = 0
    unfold dpdOf
    rw [h]
    norm_num
  exact ⟨h0, by rw [h0]; norm_num⟩

/-- Claim C2 (amended): for every input body text,
`extract_wind_seas_period` returns a fully populated tuple with
`seas_ft ≥ 0`, `wspd_kt ≥ 0`, `gust_kt ≥ 0` and `dpd_s ≥ 0` (not the
claimed strict `dpd_s > 0`: a captured `0` in `at 0 seconds` gives
`dpd_s = 0`), and — being a total function — it never raises. -/
theorem c2_fields_amended (t : List Char) :
    0 ≤ (extract_wind_seas_period t).seas_ft ∧
      0 ≤ (extract_wind_seas_period t).wspd_kt ∧
      0 ≤ (extract_wind_seas_period t).gust_kt ∧
      0 ≤ (extract_wind_seas_period t).dpd_s :=
  ⟨seasOf_nonneg t, wspdOf_nonneg t, gustOf_nonneg t, dpdOf_nonneg t⟩

/- ------------------------------------------------------------------
Claim C8.
------------------------------------------------------------------ -/

/-- Claim C8 (confirmed): when none of the wind, gust, seas or period
patterns matches anywhere in the body text, the extractor returns
exactly the defaults `(seas = 4.0, wspd = 20.0, gust = 25.0, dpd = 6.0)`,
the gust default being wind speed + 5.0. -/
theorem c8_defaults (t : List Char)
    (h1 : searchAt mRangeKtAt t = none) (h2 : searchAt mSingleKtAt t = none)
    (h3 : searchAt mGustAt t = none) (h4 : searchAt mSeasRangeAt t = none)
    (h5 : searchAt mSeasSingleAt t = none) (h6 : searchAt mDpdAt t = none) :
    extract_wind_seas_period t = ⟨4, 20, 25, 6⟩ := by
  unfold extract_wind_seas_period seasOf gustOf dpdOf wspdOf
  rw [h1, h2, h3, h4, h5, h6]
  norm_num [Measurements.mk.injEq]

/-- Witness for C8: a body text with no recognizable phrase yields the
default tuple. -/
theorem c8_defaults_witness :
    extract_wind_seas_period (("Cloudy.").data) = ⟨4, 20, 25, 6⟩ :=
  c8_defaults (("Cloudy.").data) (by decide) (by decide) (by decide)
    (by decide) (by decide) (by decide)

/- ------------------------------------------------------------------
Claim C10.
------------------------------------------------------------------ -/

/-- Claim C10 (confirmed): in
`N winds 15 kt with gusts 25 to 35 kt` the single-value pattern would
capture 15, but the range pattern is tried first over the whole text and
finds the leftmost `25 to 35 kt` range inside the gusts phrase, so the
returned `wspd_kt` is the range maximum 35, not 15. -/
theorem c10_range_precedence :
    searchAt mSingleKtAt (("N winds 15 kt with gusts 25 to 35 kt").data) = some 15 ∧
      searchAt mRangeKtAt (("N winds 15 kt with gusts 25 to 35 kt").data) =
        some (25, 35) ∧
      (extract_wind_seas_period
        (("N winds 15 kt with gusts 25 to 35 kt").data)).wspd_kt = 35 := by
  refine ⟨by decide, by decide, ?_⟩
  have h : searchAt mRangeKtAt (("N winds 15 kt with gusts 25 to 35 kt").data) =
      some (25, 35) := by decide
  show wspdOf (("N winds 15 kt with gusts 25 to 35 kt").data) = 35
  unfold wspdOf
  rw [h]
  norm_num

/- ------------------------------------------------------------------
Claim C9.
------------------------------------------------------------------ -/

/-- The source's first-match loop is `List.find?` over the period list. -/
theorem findStartsWith_eq (pre : List Char) (ps : List (List Char × List Char)) :
    findStartsWith pre ps = ps.find? (fun q => startsWithL pre q.1) := by
  induction ps with
  | nil => rfl
  | cons a l ih =>
    cases h : startsWithL pre a.1 <;>
      simp [findStartsWith, List.find?_cons, h, ih]

/-- Claim C9 (confirmed): the selector returns the first period whose
label starts with the date's weekday abbreviation; failing that, the
first period whose label starts with the first matching term of the
preference order TONIGHT, THIS AFTERNOON, TODAY; failing that, the first
period — so it always returns a value on a non-empty list. -/
theorem c9_selector (ps : List (List Char × List Char)) (ab : List Char) :
    (∀ p, ps.find? (fun q => startsWithL ab q.1) = some p →
        choose_period_for_date ps ab = some p) ∧
      (ps.find? (fun q => startsWithL ab q.1) = none →
        ∀ p, ps.find? (fun q => startsWithL (['T', 'O', 'N', 'I', 'G', 'H', 'T']) q.1) = some p →
          choose_period_for_date ps ab = some p) ∧
      (ps.find? (fun q => startsWithL ab q.1) = none →
        ps.find? (fun q => startsWithL (['T', 'O', 'N', 'I', 'G', 'H', 'T']) q.1) = none →
        ∀ p, ps.find? (fun q =>
            startsWithL (['T', 'H', 'I', 'S', ' ', 'A', 'F', 'T', 'E', 'R', 'N', 'O', 'O', 'N']) q.1) = some p →
          choose_period_for_date ps ab = some p) ∧
      (ps.find? (fun q => startsWithL ab q.1) = none →
        ps.find? (fun q => startsWithL (['T', 'O', 'N', 'I', 'G', 'H', 'T']) q.1) = none →
        ps.find? (fun q =>
          startsWithL (['T', 'H', 'I', 'S', ' ', 'A', 'F', 'T', 'E', 'R', 'N', 'O', 'O', 'N']) q.1) = none →
        ∀ p, ps.find? (fun q => startsWithL (['T', 'O', 'D', 'A', 'Y']) q.1) = some p →
          choose_period_for_date ps ab = some p) ∧
      (ps.find? (fun q => startsWithL ab q.1) = none →
        ps.find? (fun q => startsWithL (['T', 'O', 'N', 'I', 'G', 'H', 'T']) q.1) = none →
        ps.find? (fun q =>
          startsWithL (['T', 'H', 'I', 'S', ' ', 'A', 'F', 'T', 'E', 'R', 'N', 'O', 'O', 'N']) q.1) = none →
        ps.find? (fun q => startsWithL (['T', 'O', 'D', 'A', 'Y']) q.1) = none →
        choose_period_for_date ps ab = ps.head?) ∧
      (ps ≠ [] → (choose_period_for_date ps ab).isSome = true) := by
  have e : ∀ pre, findStartsWith pre ps = ps.find? (fun q => startsWithL pre q.1) :=
    fun pre => findStartsWith_eq pre ps
  refine ⟨?_, ?_, ?_, ?_, ?_, ?_⟩
  · intro p hp
    unfold choose_period_for_date
    rw [e ab, hp]
  · intro h0 p hp
    simp [choose_period_for_date, tryPrio, priorityLabels, e, h0, hp]
  · intro h0 h1 p hp
    simp [choose_period_for_date, tryPrio, priorityLabels, e, h0, h1, hp]
  · intro h0 h1 h2 p hp
    simp [choose_period_for_date, tryPrio, priorityLabels, e, h0, h1, h2, hp]
  · intro h0 h1 h2 h3
    simp [choose_period_for_date, tryPrio, priorityLabels, e, h0, h1, h2, h3]
  · intro hne
    unfold choose_period_for_date
    cases h0 : findStartsWith ab ps with
    | some p => simp
    | none =>
      cases h1 : tryPrio priorityLabels ps with
      | some p => simp
      | none =>
        cases ps with
        | nil => exact absurd rfl hne
        | cons a l => simp

/-- Witness for C9: on a singleton list labeled MONDAY with target
weekday Monday, the selector returns that period. -/
theorem c9_selector_witness :
    choose_period_for_date [(("MONDAY").data, ("b1").data)] (weekdayAbbrev 0) =
      some ((("MONDAY").data), (("b1").data)) :=
  (c9_selector [(("MONDAY").data, ("b1").data)] (weekdayAbbrev 0)).1
    ((("MONDAY").data), (("b1").data)) (by decide)

/- ------------------------------------------------------------------
Claim C3.
------------------------------------------------------------------ -/

/-- Position scans are monotone in the position predicate. -/
theorem anyPos_mono {p q : List Char → Bool} (h : ∀ l, p l = true → q l = true) :
    ∀ l, anyPos p l = true → anyPos q l = true := by
  intro l
  induction l with
  | nil =>
    intro hp
    exact h [] hp
  | cons c t ih =>
    intro hp
    rcases Bool.or_eq_true_iff.mp hp with hp1 | hp2
    · exact Bool.or_eq_true_iff.mpr (Or.inl (h _ hp1))
    · exact Bool.or_eq_true_iff.mpr (Or.inr (ih hp2))

/-- A line containing `PM` anywhere matches the timestamp regex, because
the alternation in `\d{3,4}\s+AM|PM` binds loosely. -/
theorem pm_implies_ts (l : List Char) :
    anyPos (startsWithL pmL) l = true → tsSearch l = true := by
  intro h
  exact anyPos_mono (fun m hm => by simp [tsAt, hm]) l h

/-- A line containing a 3-4 digit run, whitespace and `AM` matches the
timestamp regex. -/
theorem d34am_implies_ts (l : List Char) :
    anyPos d34AmAt l = true → tsSearch l = true := by
  intro h
  exact anyPos_mono (fun m hm => by simp [tsAt, hm]) l h

/-- Claim C3 (amended): after the anchor, the skipped lines are blank
lines, lines matching `\d{3,4}\s+AM`, lines containing the substring
`PM` anywhere (even with no digit at all — the alternation in the
source's timestamp regex binds loosely), and lines containing WARNING or
WATCH; every other non-label line while a label is active is appended to
the current body. -/
theorem c3_step_amended (st : SegSt) (ln lb : List Char)
    (hs : st.started = true) (hl : st.label = some lb) :
    ((pyStrip ln).isEmpty = false → tsSearch ln = false → warnHit ln = false →
        isLabelLine ln = false →
        segStep st ln = { st with body := st.body ++ [ln] }) ∧
      (anyPos (startsWithL pmL) ln = true → segStep st ln = st) ∧
      (anyPos d34AmAt ln = true → segStep st ln = st) := by
  refine ⟨?_, ?_, ?_⟩
  · intro h1 h2 h3 h4
    simp [segStep, hs, h1, h2, h3, h4, hl]
  · intro hpm
    have hts := pm_implies_ts ln hpm
    unfold segStep
    simp [hs, hts]
  · intro ham
    have hts := d34am_implies_ts ln ham
    unfold segStep
    simp [hs, hts]

/-- Witness for the amended C3: with a label active, an ordinary prose
line is appended to the body. -/
theorem c3_step_witness :
    segStep ⟨true, some (("TONIGHT").data), [], []⟩ (("Seas 5 ft").data) =
      { started := true, label := some (("TONIGHT").data),
        body := [("Seas 5 ft").data], periods := [] } :=
  (c3_step_amended ⟨true, some (("TONIGHT").data), [], []⟩ (("Seas 5 ft").data)
    (("TONIGHT").data) rfl rfl).1 (by decide) (by decide) (by decide) (by decide)

/-- Claim C3 (counterexample): the digit-free, warning-free, non-blank,
non-label prose line `PM showers likely` is dropped by the segmenter —
it contains `PM`, and the timestamp regex `\d{3,4}\s+AM|PM` matches any
line containing `PM` regardless of digits — so, contrary to the claim,
it never appears in the emitted body. -/
theorem c3_pm_counterexample :
    parse_periods_from_block
        (("Nantucket Sound\nTONIGHT\nPM showers likely\nSeas 5 ft").data) =
        Except.ok [((("TONIGHT").data), (("Seas 5 ft").data))] ∧
      (("PM showers likely").data).all (fun c => !c.isDigit) = true ∧
      warnHit (("PM showers likely").data) = false ∧
      isLabelLine (("PM showers likely").data) = false ∧
      (pyStrip (("PM showers likely").data)).isEmpty = false := by
  refine ⟨?_, by decide, by decide, by decide, by decide⟩
  rfl

/- ------------------------------------------------------------------
Claim C7: helper lemmas about position search and the anchor.
------------------------------------------------------------------ -/

/-- A successful position search really found a matching position. -/
theorem findPos_some_prop (p : List Char → Bool) :
    ∀ (l : List Char) (i : Nat), findPos p l = some i → p (l.drop i) = true := by
  intro l
  induction l with
  | nil =>
    intro i h
    cases hp : p [] with
    | true =>
      have hi : i = 0 := by simp [findPos, hp] at h; omega
      subst hi
      simpa using hp
    | false => simp [findPos, hp] at h
  | cons c t ih =>
    intro i h
    cases hp : p (c :: t) with
    | true =>
      have hi : i = 0 := by simp [findPos, hp] at h; omega
      subst hi
      simpa using hp
    | false =>
      simp [findPos, hp] at h
      obtain ⟨j, hj, hji⟩ := h
      subst hji
      simpa using ih j hj

/-- A failed position search means no position matches. -/
theorem findPos_none_prop (p : List Char → Bool) :
    ∀ (l : List Char), findPos p l = none → ∀ i, p (l.drop i) = false := by
  intro l
  induction l with
  | nil =>
    intro h i
    cases hp : p [] with
    | true => simp [findPos, hp] at h
    | false =>
      have hnil : ([] : List Char).drop i = [] := List.drop_nil
      rw [hnil]
      exact hp
  | cons c t ih =>
    intro h i
    cases hp : p (c :: t) with
    | true => simp [findPos, hp] at h
    | false =>
      have ht : findPos p t = none := by
        simp [findPos, hp] at h
        exact h
      cases i with
      | zero => simpa using hp
      | succ j => simpa using ih ht j

/-- Boolean "starts with" as a propositional decomposition. -/
theorem startsWithL_iff (p l : List Char) :
    startsWithL p l = true ↔ ∃ r, l = p ++ r := by
  induction p generalizing l with
  | nil =>
    constructor
    · intro _; exact ⟨l, rfl⟩
    · intro _; rfl
  | cons a ps ih =>
    cases l with
    | nil =>
      constructor
      · intro h; exact absurd h (by simp [startsWithL])
      · rintro ⟨r, hr⟩; exact absurd hr (by simp)
    | cons c cs =>
      constructor
      · intro h
        simp [startsWithL] at h
        obtain ⟨r, hr⟩ := (ih cs).mp h.2
        refine ⟨r, ?_⟩
        rw [← h.1, hr]
        rfl
      · rintro ⟨r, hr⟩
        injection hr with h1 h2
        subst h1
        have h3 := (ih cs).mpr ⟨r, h2⟩
        simp [startsWithL, h3]

/-- Dropping at most the first list's length from an append. -/
theorem drop_append_le (l1 l2 : List Char) :
    ∀ n, n ≤ l1.length → (l1 ++ l2).drop n = l1.drop n ++ l2 := by
  induction l1 with
  | nil =>
    intro n h
    have h0 : n = 0 := Nat.le_zero.mp (by simpa using h)
    subst h0
    rfl
  | cons c t ih =>
    intro n h
    cases n with
    | zero => rfl
    | succ m =>
      have hm : m ≤ t.length := by simp at h; omega
      simpa using ih m hm

/-- Taking at least the first list's length from an append. -/
theorem take_append_ge (l1 l2 : List Char) :
    ∀ n, l1.length ≤ n → (l1 ++ l2).take n = l1 ++ l2.take (n - l1.length) := by
  induction l1 with
  | nil => intro n h; simp
  | cons c t ih =>
    intro n h
    cases n with
    | zero => simp at h
    | succ m =>
      have hm : t.length ≤ m := by simp at h; omega
      simp [List.take_succ_cons, ih m hm, Nat.succ_sub_succ]

/-- A sibling-heading match starts with a newline. -/
theorem sibAt_eq_newline {l : List Char} (h : sibAt l = true) :
    ∃ c r, l = '\n' :: c :: r := by
  cases l with
  | nil => simp [sibAt] at h
  | cons c0 t =>
    cases t with
    | nil => simp [sibAt] at h
    | cons c1 r =>
      simp [sibAt] at h
      exact ⟨c1, r, by rw [h.1.1]⟩

/-- No suffix of the anchor (padded with anything) matches the sibling
heading: the anchor contains no newline. -/
theorem anchor_no_newline :
    ∀ k, k < 15 → ∀ r : List Char, sibAt (anchorL.drop k ++ r) = false := by
  have hhead : ∀ k, k < 15 → (anchorL.drop k).head? ≠ some '\n' := by decide
  intro k hk r
  cases hs : sibAt (anchorL.drop k ++ r) with
  | false => rfl
  | true =>
    exfalso
    obtain ⟨c, rr, heq⟩ := sibAt_eq_newline hs
    cases hd : anchorL.drop k with
    | nil =>
      have hlen : anchorL.length - k = 0 := by
        rw [← List.length_drop, hd]
        rfl
      have h15 : anchorL.length = 15 := rfl
      omega
    | cons x xs =>
      rw [hd] at heq
      injection heq with h1 h2
      exact hhead k hk (by rw [hd]; simp [h1])

/-- `dropWhile` distributes over an append whose right part starts with a
character the predicate rejects. -/
theorem dropWhile_append_head (p : Char → Bool) (a : List Char) (c : Char)
    (bt : List Char) (hc : p c = false) :
    (a ++ c :: bt).dropWhile p = a.dropWhile p ++ c :: bt := by
  induction a with
  | nil => simp [List.dropWhile_cons, hc]
  | cons x xs ih =>
    cases hx : p x <;> simp [List.dropWhile_cons, hx, ih]

/-- Stripping a text that begins with the anchor phrase keeps the anchor
as its head (the anchor starts and ends with non-whitespace). -/
theorem pyStrip_anchor (r : List Char) :
    pyStrip (anchorL ++ r) = anchorL ++ (r.reverse.dropWhile pyWsB).reverse := by
  have hN : pyWsB 'N' = false := by decide
  have hlead : (anchorL ++ r).dropWhile pyWsB = anchorL ++ r := by
    rw [show anchorL ++ r = 'N' :: (anchorL.tail ++ r) from rfl,
      List.dropWhile_cons, hN]
    simp
  have hrev : anchorL.reverse = anchorRev := by decide
  have hd : pyWsB 'd' = false := by decide
  unfold pyStrip dropTrail
  rw [hlead, List.reverse_append, hrev,
    show anchorRev = 'd' :: anchorRev.tail from rfl,
    dropWhile_append_head pyWsB r.reverse 'd' anchorRev.tail hd,
    List.reverse_append]
  congr 1

/-- Common conclusion step for C7 in the successful case. -/
theorem c7_conclude (s bb : List Char)
    (hok : fetch_anz232_block s = Except.ok bb)
    (hbb : ∃ rr, bb = anchorL ++ rr)
    (hocc : ∃ pre post, s = pre ++ anchorL ++ post) :
    (fetch_anz232_block s = Except.error FerryErr.regionNotFound ↔
        ¬ ∃ pre post, s = pre ++ anchorL ++ post) ∧
      ∀ b, fetch_anz232_block s = Except.ok b →
        (∃ r, b = anchorL ++ r) ∧ b ≠ [] ∧ ∃ pre post, b = pre ++ anchorL ++ post := by
  obtain ⟨rr, hrr⟩ := hbb
  constructor
  · rw [hok]
    constructor
    · intro hcon; simp at hcon
    · intro hno; exact absurd hocc hno
  · intro b hb
    rw [hok] at hb
    injection hb with hb2
    subst hb2
    refine ⟨⟨rr, hrr⟩, ?_, ⟨[], rr, by simpa using hrr⟩⟩
    rw [hrr]
    simp [anchorL]

/-- Claim C7 (confirmed): region extraction fails with the NotFound error
iff the anchor phrase `Nantucket Sound` occurs nowhere in the cleaned
text; whenever the anchor is present, it returns a block without error,
and that block begins with the anchor occurrence, is non-empty, and
contains the anchor phrase. -/
theorem c7_region_extraction (s : List Char) :
    (fetch_anz232_block s = Except.error FerryErr.regionNotFound ↔
        ¬ ∃ pre post, s = pre ++ anchorL ++ post) ∧
      ∀ b, fetch_anz232_block s = Except.ok b →
        (∃ r, b = anchorL ++ r) ∧ b ≠ [] ∧ ∃ pre post, b = pre ++ anchorL ++ post := by
  cases h : findPos (startsWithL anchorL) s with
  | none =>
    have hfetch : fetch_anz232_block s = Except.error FerryErr.regionNotFound := by
      simp [fetch_anz232_block, h]
    constructor
    · rw [hfetch]
      constructor
      · intro _
        rintro ⟨pre, post, heq⟩
        have hdrop : s.drop pre.length = anchorL ++ post := by
          rw [heq, List.append_assoc,
            drop_append_le pre (anchorL ++ post) pre.length le_rfl,
            List.drop_length]
          rfl
        have hsw : startsWithL anchorL (s.drop pre.length) = true :=
          (startsWithL_iff _ _).mpr ⟨post, hdrop⟩
        rw [findPos_none_prop _ s h pre.length] at hsw
        exact Bool.noConfusion hsw
      · intro _
        rfl
    · intro b hb
      rw [hfetch] at hb
      simp at hb
  | some i =>
    have hp := findPos_some_prop (startsWithL anchorL) s i h
    obtain ⟨r0, hr0⟩ := (startsWithL_iff _ _).mp hp
    have hocc : ∃ pre post, s = pre ++ anchorL ++ post := by
      refine ⟨s.take i, r0, ?_⟩
      conv_lhs => rw [← List.take_append_drop i s]
      rw [hr0, List.append_assoc]
    cases h2 : findPos sibAt (s.drop (i + 1)) with
    | none =>
      have hok : fetch_anz232_block s = Except.ok (pyStrip (s.drop i)) := by
        simp [fetch_anz232_block, h, h2]
      have hb : ∃ rr, pyStrip (s.drop i) = anchorL ++ rr := by
        rw [hr0, pyStrip_anchor]
        exact ⟨_, rfl⟩
      exact c7_conclude s _ hok hb hocc
    | some j =>
      have hsib : sibAt ((s.drop i).drop (j + 1)) = true := by
        have hstep := findPos_some_prop sibAt (s.drop (i + 1)) j h2
        rw [List.drop_drop] at hstep ⊢
        convert hstep using 3
        omega
      have h15 : 15 ≤ j + 1 := by
        by_contra hlt
        push_neg at hlt
        have hdr : (s.drop i).drop (j + 1) = anchorL.drop (j + 1) ++ r0 := by
          rw [hr0]
          exact drop_append_le anchorL r0 (j + 1)
            (by rw [show anchorL.length = 15 from rfl]; omega)
        rw [hdr, anchor_no_newline (j + 1) hlt r0] at hsib
        exact Bool.noConfusion hsib
      have htk : (s.drop i).take (j + 1) =
          anchorL ++ r0.take (j + 1 - anchorL.length) := by
        rw [hr0]
        exact take_append_ge anchorL r0 (j + 1)
          (by rw [show anchorL.length = 15 from rfl]; omega)
      have hok : fetch_anz232_block s =
          Except.ok (pyStrip ((s.drop i).take (j + 1))) := by
        simp [fetch_anz232_block, h, h2]
      have hb : ∃ rr, pyStrip ((s.drop i).take (j + 1)) = anchorL ++ rr := by
        rw [htk, pyStrip_anchor]
        exact ⟨_, rfl⟩
      exact c7_conclude s _ hok hb hocc

/-- Witness for C7: on a text that contains the anchor, extraction
succeeds, and the returned block starts with, and hence contains, the
anchor phrase. -/
theorem c7_region_witness :
    (∃ r, ("Nantucket Sound rough seas").data = anchorL ++ r) ∧
      ("Nantucket Sound rough seas").data ≠ [] ∧
      ∃ pre post, ("Nantucket Sound rough seas").data = pre ++ anchorL ++ post :=
  (c7_region_extraction (("Nantucket Sound rough seas").data)).2
    (("Nantucket Sound rough seas").data) (by rfl)
